import Mathlib

/-!
Verification development for the rust-vnc library.

The Rust sources under `src/` are shallowly embedded: bytes are `Nat`
values 0..255 in a `List`, fallible reads return `Except Err`, and
machine-integer truncation is modelled with explicit `% 2^w`.  Every
definition mirrors the corresponding Rust function; the few pieces of
the repository that are not present under `src/` (the `Error` enum, the
`security` module's `des` function, the `zrle` decoder, `Rect`'s codec)
are modelled from the specification and say so in their doc comments.
-/

deriving instance DecidableEq for Except

namespace RVnc

/-- Wire bytes: a finite stream of octets (each entry is 0..255). -/
abbrev Bytes := List Nat

/-- Modelled from the spec: the `Error` enum is not under `src/`.
Section 7 of the spec gives the taxonomy (I/O, Unexpected, Disconnected,
Server, AuthenticationUnavailable, AuthenticationFailure); `lib.rs`
additionally uses `UnexpectedEOF` and `UnexpectedValue`. -/
inductive Err where
  | ioError
  | unexpected (what : String)
  | disconnected
  | server (reason : String)
  | authenticationUnavailable
  | authenticationFailure (reason : String)
  | unexpectedEOF
  | unexpectedValue (what : String)
deriving DecidableEq

/-- `read_u8`: one octet; end of stream inside a record is an I/O error. -/
def readU8 : Bytes → Except Err (Nat × Bytes)
  | [] => .error .ioError
  | b :: rest => .ok (b, rest)

/-- `read_u16::<BigEndian>`. -/
def readU16 : Bytes → Except Err (Nat × Bytes)
  | b1 :: b2 :: rest => .ok (b1 * 256 + b2, rest)
  | _ => .error .ioError

/-- `read_u32::<BigEndian>`. -/
def readU32 : Bytes → Except Err (Nat × Bytes)
  | b1 :: b2 :: b3 :: b4 :: rest =>
      .ok (((b1 * 256 + b2) * 256 + b3) * 256 + b4, rest)
  | _ => .error .ioError

/-- `read_i32::<BigEndian>`: two's complement on 32 bits. -/
def readI32 (bs : Bytes) : Except Err (Int × Bytes) :=
  match readU32 bs with
  | .error e => .error e
  | .ok (n, rest) =>
      .ok (if n < 2 ^ 31 then (n : Int) else (n : Int) - 2 ^ 32, rest)

/-- `read_exact` into a buffer of length `n`. -/
def readBytes (n : Nat) (bs : Bytes) : Except Err (Bytes × Bytes) :=
  if n ≤ bs.length then .ok (bs.take n, bs.drop n) else .error .ioError

/-- `write_u8` (the Rust argument is a `u8`; truncation is explicit). -/
def writeU8 (v : Nat) : Bytes := [v % 256]

/-- `write_u16::<BigEndian>`. -/
def writeU16 (v : Nat) : Bytes := [v / 256 % 256, v % 256]

/-- `write_u32::<BigEndian>`. -/
def writeU32 (v : Nat) : Bytes :=
  [v / 16777216 % 256, v / 65536 % 256, v / 256 % 256, v % 256]

/-- `write_i32::<BigEndian>`: the two's-complement image of `i`. -/
def writeI32 (i : Int) : Bytes := writeU32 (i % 2 ^ 32).toNat

/-- Reading a counted sequence: the `for _ in 0..count` read loops. -/
def readList {α : Type} (read : Bytes → Except Err (α × Bytes)) :
    Nat → Bytes → Except Err (List α × Bytes)
  | 0, bs => .ok ([], bs)
  | n + 1, bs => do
    let (x, bs1) ← read bs
    let (xs, bs2) ← readList read n bs1
    .ok (x :: xs, bs2)

/-! ## Strings (protocol.rs, `impl Message for String`)

A Rust `String` is modelled as its list of characters (Unicode code
points).  `String::len` in Rust is the UTF-8 byte length, which the
writer uses as the length prefix, while the writer's payload is one
byte per character (`c as u8` truncates to the low octet). -/

/-- Number of UTF-8 bytes of one code point (what `String::len` sums). -/
def utf8Len (c : Nat) : Nat :=
  if c < 0x80 then 1 else if c < 0x800 then 2 else if c < 0x10000 then 3 else 4

/-- `String::len`: the UTF-8 byte length of the string. -/
def rustStrLen (s : List Nat) : Nat := (s.map utf8Len).sum

/-- `String::read_from`: u32 length, that many bytes, each byte widened
to one character. -/
def stringReadFrom (bs : Bytes) : Except Err (List Nat × Bytes) := do
  let (length, bs1) ← readU32 bs
  let (buf, bs2) ← readBytes length bs1
  .ok (buf, bs2)

/-- `String::write_to`: writes `self.len() as u32` (the UTF-8 byte
length), then `self.chars().map(|c| c as u8)` — one byte per character. -/
def stringWriteTo (s : List Nat) : Bytes :=
  writeU32 (rustStrLen s) ++ s.map (· % 256)

/-! ## Basic protocol enumerations -/

/-- `Version` (protocol.rs). -/
inductive Version where
  | rfb33
  | rfb37
  | rfb38
deriving DecidableEq

/-- `SecurityType` (protocol.rs). -/
inductive SecurityType where
  | unknown (n : Nat)
  | invalid
  | none
  | vncAuthentication
  | appleRemoteDesktop
deriving DecidableEq

/-- The byte-to-`SecurityType` mapping of `SecurityType::read_from`. -/
def byteSecurityType : Nat → SecurityType
  | 0 => .invalid
  | 1 => .none
  | 2 => .vncAuthentication
  | 30 => .appleRemoteDesktop
  | n => .unknown n

/-- `SecurityType::read_from`: a single u8. -/
def securityTypeReadFrom (bs : Bytes) : Except Err (SecurityType × Bytes) := do
  let (securityType, bs1) ← readU8 bs
  .ok (byteSecurityType securityType, bs1)

/-- `SecurityType::write_to`. -/
def securityTypeWriteTo : SecurityType → Bytes
  | .invalid => writeU8 0
  | .none => writeU8 1
  | .vncAuthentication => writeU8 2
  | .appleRemoteDesktop => writeU8 30
  | .unknown n => writeU8 n

/-- `SecurityTypes::read_from`: u8 count, then that many one-byte types. -/
def securityTypesReadFrom (bs : Bytes) : Except Err (List SecurityType × Bytes) := do
  let (count, bs1) ← readU8 bs
  let (securityTypes, bs2) ← readList securityTypeReadFrom count bs1
  .ok (securityTypes, bs2)

/-! ## PixelFormat and friends -/

/-- `PixelFormat` (protocol.rs). -/
structure PixelFormat where
  bitsPerPixel : Nat
  depth : Nat
  bigEndian : Bool
  trueColour : Bool
  redMax : Nat
  greenMax : Nat
  blueMax : Nat
  redShift : Nat
  greenShift : Nat
  blueShift : Nat
deriving DecidableEq

/-- `PixelFormat::new_rgb8888`. -/
def PixelFormat.newRgb8888 : PixelFormat :=
  { bitsPerPixel := 32, depth := 24, bigEndian := true, trueColour := true,
    redMax := 255, greenMax := 255, blueMax := 255,
    redShift := 0, greenShift := 8, blueShift := 16 }

/-- `PixelFormat::read_from`: ten fields then 3 padding bytes. -/
def pixelFormatReadFrom (bs : Bytes) : Except Err (PixelFormat × Bytes) := do
  let (bitsPerPixel, bs1) ← readU8 bs
  let (depth, bs2) ← readU8 bs1
  let (bigEndian, bs3) ← readU8 bs2
  let (trueColour, bs4) ← readU8 bs3
  let (redMax, bs5) ← readU16 bs4
  let (greenMax, bs6) ← readU16 bs5
  let (blueMax, bs7) ← readU16 bs6
  let (redShift, bs8) ← readU8 bs7
  let (greenShift, bs9) ← readU8 bs8
  let (blueShift, bs10) ← readU8 bs9
  let (_, bs11) ← readBytes 3 bs10
  .ok ({ bitsPerPixel, depth, bigEndian := bigEndian ≠ 0,
         trueColour := trueColour ≠ 0, redMax, greenMax, blueMax,
         redShift, greenShift, blueShift }, bs11)

/-- `PixelFormat::write_to`. -/
def pixelFormatWriteTo (pf : PixelFormat) : Bytes :=
  writeU8 pf.bitsPerPixel ++ writeU8 pf.depth ++
  writeU8 (if pf.bigEndian then 1 else 0) ++
  writeU8 (if pf.trueColour then 1 else 0) ++
  writeU16 pf.redMax ++ writeU16 pf.greenMax ++ writeU16 pf.blueMax ++
  writeU8 pf.redShift ++ writeU8 pf.greenShift ++ writeU8 pf.blueShift ++
  [0, 0, 0]

/-- `Colour` (protocol.rs). -/
structure Colour where
  red : Nat
  green : Nat
  blue : Nat
deriving DecidableEq

/-- `Colour::read_from`. -/
def colourReadFrom (bs : Bytes) : Except Err (Colour × Bytes) := do
  let (red, bs1) ← readU16 bs
  let (green, bs2) ← readU16 bs1
  let (blue, bs3) ← readU16 bs2
  .ok ({ red, green, blue }, bs3)

/-- `Colour::write_to`. -/
def colourWriteTo (c : Colour) : Bytes :=
  writeU16 c.red ++ writeU16 c.green ++ writeU16 c.blue

/-- `CopyRect` (protocol.rs). -/
structure CopyRectSrc where
  srcXPosition : Nat
  srcYPosition : Nat
deriving DecidableEq

/-- `CopyRect::read_from`. -/
def copyRectReadFrom (bs : Bytes) : Except Err (CopyRectSrc × Bytes) := do
  let (srcXPosition, bs1) ← readU16 bs
  let (srcYPosition, bs2) ← readU16 bs1
  .ok ({ srcXPosition, srcYPosition }, bs2)

/-- `Encoding` (protocol.rs). -/
inductive Encoding where
  | unknown (n : Int)
  | raw
  | copyRect
  | rre
  | hextile
  | zrle
  | cursor
  | desktopSize
  | extendedKeyEvent
deriving DecidableEq

/-- The i32-to-`Encoding` mapping of `Encoding::read_from`. -/
def intEncoding (n : Int) : Encoding :=
  if n = 0 then .raw
  else if n = 1 then .copyRect
  else if n = 2 then .rre
  else if n = 5 then .hextile
  else if n = 16 then .zrle
  else if n = -239 then .cursor
  else if n = -223 then .desktopSize
  else if n = -258 then .extendedKeyEvent
  else .unknown n

/-- `Encoding::read_from`: a big-endian i32. -/
def encodingReadFrom (bs : Bytes) : Except Err (Encoding × Bytes) := do
  let (encoding, bs1) ← readI32 bs
  .ok (intEncoding encoding, bs1)

/-- The `Encoding`-to-i32 mapping of `Encoding::write_to`. -/
def Encoding.code : Encoding → Int
  | .raw => 0
  | .copyRect => 1
  | .rre => 2
  | .hextile => 5
  | .zrle => 16
  | .cursor => -239
  | .desktopSize => -223
  | .extendedKeyEvent => -258
  | .unknown n => n

/-- `Encoding::write_to`. -/
def encodingWriteTo (e : Encoding) : Bytes := writeI32 e.code

/-! ## Client-to-server messages (protocol.rs, `C2S`) -/

/-- `C2S` (protocol.rs). -/
inductive C2S where
  | setPixelFormat (pixelFormat : PixelFormat)
  | setEncodings (encodings : List Encoding)
  | framebufferUpdateRequest (incremental : Bool)
      (xPosition yPosition width height : Nat)
  | keyEvent (down : Bool) (key : Nat)
  | pointerEvent (buttonMask xPosition yPosition : Nat)
  | cutText (text : List Nat)
  | extendedKeyEvent (down : Bool) (keysym keycode : Nat)
deriving DecidableEq

/-- `C2S::read_from`.  EOF on the leading type byte is `Disconnected`;
any later EOF is an I/O error. -/
def c2sReadFrom (bs : Bytes) : Except Err (C2S × Bytes) :=
  match bs with
  | [] => .error .disconnected
  | messageType :: bs0 =>
    match messageType with
    | 0 => do
      let (_, bs1) ← readBytes 3 bs0
      let (pixelFormat, bs2) ← pixelFormatReadFrom bs1
      .ok (.setPixelFormat pixelFormat, bs2)
    | 2 => do
      let (_, bs1) ← readBytes 1 bs0
      let (count, bs2) ← readU16 bs1
      let (encodings, bs3) ← readList encodingReadFrom count bs2
      .ok (.setEncodings encodings, bs3)
    | 3 => do
      let (incremental, bs1) ← readU8 bs0
      let (xPosition, bs2) ← readU16 bs1
      let (yPosition, bs3) ← readU16 bs2
      let (width, bs4) ← readU16 bs3
      let (height, bs5) ← readU16 bs4
      .ok (.framebufferUpdateRequest (incremental ≠ 0) xPosition yPosition
             width height, bs5)
    | 4 => do
      let (down, bs1) ← readU8 bs0
      let (_, bs2) ← readBytes 2 bs1
      let (key, bs3) ← readU32 bs2
      .ok (.keyEvent (down ≠ 0) key, bs3)
    | 5 => do
      let (buttonMask, bs1) ← readU8 bs0
      let (xPosition, bs2) ← readU16 bs1
      let (yPosition, bs3) ← readU16 bs2
      .ok (.pointerEvent buttonMask xPosition yPosition, bs3)
    | 6 => do
      let (_, bs1) ← readBytes 3 bs0
      let (text, bs2) ← stringReadFrom bs1
      .ok (.cutText text, bs2)
    | 255 => do
      let (submessageType, bs1) ← readU8 bs0
      match submessageType with
      | 0 => do
        let (down, bs2) ← readU16 bs1
        let (keysym, bs3) ← readU32 bs2
        let (keycode, bs4) ← readU32 bs3
        .ok (.extendedKeyEvent (down ≠ 0) keysym keycode, bs4)
      | _ => .error (.unexpected "server to client QEMU submessage type")
    | _ => .error (.unexpected "client to server message type")

/-- `C2S::write_to`.  Note: the `CutText` arm writes only the string,
without the leading type byte 6 and the 3 padding bytes that
`C2S::read_from` expects (protocol.rs lines 534-536). -/
def c2sWriteTo : C2S → Bytes
  | .setPixelFormat pixelFormat =>
      writeU8 0 ++ [0, 0, 0] ++ pixelFormatWriteTo pixelFormat
  | .setEncodings encodings =>
      writeU8 2 ++ [0] ++ writeU16 encodings.length ++
      (encodings.map encodingWriteTo).flatten
  | .framebufferUpdateRequest incremental xPosition yPosition width height =>
      writeU8 3 ++ writeU8 (if incremental then 1 else 0) ++
      writeU16 xPosition ++ writeU16 yPosition ++ writeU16 width ++
      writeU16 height
  | .keyEvent down key =>
      writeU8 4 ++ writeU8 (if down then 1 else 0) ++ [0, 0] ++ writeU32 key
  | .pointerEvent buttonMask xPosition yPosition =>
      writeU8 5 ++ writeU8 buttonMask ++ writeU16 xPosition ++
      writeU16 yPosition
  | .cutText text =>
      stringWriteTo text
  | .extendedKeyEvent down keysym keycode =>
      writeU8 255 ++ writeU8 0 ++ writeU16 (if down then 1 else 0) ++
      writeU32 keysym ++ writeU32 keycode

/-! ## Server-to-client messages (protocol.rs, `S2C`) -/

/-- `RectangleHeader` (protocol.rs); `client.rs` and `lib.rs` refer to
it as `protocol::Rectangle` — same fields, read in the same order. -/
structure RectangleHeader where
  xPosition : Nat
  yPosition : Nat
  width : Nat
  height : Nat
  encoding : Encoding
deriving DecidableEq

/-- `RectangleHeader::read_from`. -/
def rectangleReadFrom (bs : Bytes) : Except Err (RectangleHeader × Bytes) := do
  let (xPosition, bs1) ← readU16 bs
  let (yPosition, bs2) ← readU16 bs1
  let (width, bs3) ← readU16 bs2
  let (height, bs4) ← readU16 bs3
  let (encoding, bs5) ← encodingReadFrom bs4
  .ok ({ xPosition, yPosition, width, height, encoding }, bs5)

/-- `S2C` (protocol.rs). -/
inductive S2C where
  | framebufferUpdate (count : Nat)
  | setColourMapEntries (firstColour : Nat) (colours : List Colour)
  | bell
  | cutText (text : List Nat)
deriving DecidableEq

/-- `S2C::read_from`. -/
def s2cReadFrom (bs : Bytes) : Except Err (S2C × Bytes) :=
  match bs with
  | [] => .error .disconnected
  | messageType :: bs0 =>
    match messageType with
    | 0 => do
      let (_, bs1) ← readBytes 1 bs0
      let (count, bs2) ← readU16 bs1
      .ok (.framebufferUpdate count, bs2)
    | 1 => do
      let (_, bs1) ← readBytes 1 bs0
      let (firstColour, bs2) ← readU16 bs1
      let (count, bs3) ← readU16 bs2
      let (colours, bs4) ← readList colourReadFrom count bs3
      .ok (.setColourMapEntries firstColour colours, bs4)
    | 2 => .ok (.bell, bs0)
    | 3 => do
      let (_, bs1) ← readBytes 3 bs0
      let (text, bs2) ← stringReadFrom bs1
      .ok (.cutText text, bs2)
    | _ => .error (.unexpected "server to client message type")

/-- `S2C::write_to`.  Note: the `SetColourMapEntries` arm writes the
first-colour index and then the colours, but not the u16 colour count
that `S2C::read_from` expects (protocol.rs lines 662-669). -/
def s2cWriteTo : S2C → Bytes
  | .framebufferUpdate count =>
      writeU8 0 ++ [0] ++ writeU16 count
  | .setColourMapEntries firstColour colours =>
      writeU8 1 ++ [0] ++ writeU16 firstColour ++
      (colours.map colourWriteTo).flatten
  | .bell => writeU8 2
  | .cutText text =>
      writeU8 3 ++ [0, 0, 0] ++ stringWriteTo text

/-! ## Client security negotiation (client.rs lines 175-190) -/

/-- The security-type reading step of `Client::from_tcp_stream`: for
RFB 3.3 a single type via `SecurityType::read_from` (one byte), turned
into an empty list when it is `Invalid`; otherwise the counted list
via `SecurityTypes::read_from`. -/
def clientReadSecurityTypes (version : Version) (bs : Bytes) :
    Except Err (List SecurityType × Bytes) :=
  match version with
  | .rfb33 => do
    let (securityType, bs1) ← securityTypeReadFrom bs
    .ok (if securityType = SecurityType.invalid then [] else [securityType], bs1)
  | _ => do
    let (securityTypes, bs1) ← securityTypesReadFrom bs
    .ok (securityTypes, bs1)

/-- Follows the spec's words, for comparison with the source's
`clientReadSecurityTypes` (§4.4: "Read security type(s). For 3.3 this
is a single u32 type; for 3.7+ it is a list."): the 3.3 arm reads a
big-endian u32 and maps the value through the `SecurityType` table. -/
def clientReadSecurityTypesSpec (version : Version) (bs : Bytes) :
    Except Err (List SecurityType × Bytes) :=
  match version with
  | .rfb33 => do
    let (n, bs1) ← readU32 bs
    let securityType := byteSecurityType n
    .ok (if securityType = SecurityType.invalid then [] else [securityType], bs1)
  | _ => do
    let (securityTypes, bs1) ← securityTypesReadFrom bs
    .ok (securityTypes, bs1)

/-! ## DES and VNC authentication (client.rs lines 227-249)

The client-side key preparation (the bit-reversal loop) is under
`src/`; the `des` function it calls lives in the `security` module,
which is not under `src/` and is therefore modelled from the spec
(§4.3), with a standard DES-ECB block implementation. -/

/-- Bits of one octet, most significant first. -/
def byteBits (b : Nat) : List Nat :=
  [b / 128 % 2, b / 64 % 2, b / 32 % 2, b / 16 % 2,
   b / 8 % 2, b / 4 % 2, b / 2 % 2, b % 2]

/-- Octet list to bit list. -/
def bytesToBits (bs : List Nat) : List Nat := (bs.map byteBits).flatten

/-- Bit list (most significant first) to one value. -/
def bitsToByte (bits : List Nat) : Nat := bits.foldl (fun a b => a * 2 + b % 2) 0

/-- Bit list to octet list, eight bits at a time. -/
def bitsToBytes : List Nat → List Nat
  | b0 :: b1 :: b2 :: b3 :: b4 :: b5 :: b6 :: b7 :: rest =>
      bitsToByte [b0, b1, b2, b3, b4, b5, b6, b7] :: bitsToBytes rest
  | _ => []

/-- Bit selection by a 1-indexed DES permutation table. -/
def permute (table bits : List Nat) : List Nat :=
  table.map (fun i => bits.getD (i - 1) 0)

/-- Bitwise exclusive or of two bit lists. -/
def xorBits (a b : List Nat) : List Nat := a.zipWith (fun x y => (x + y) % 2) b

/-- Left rotation of a bit list. -/
def rotl (n : Nat) (l : List Nat) : List Nat := l.drop n ++ l.take n

/-- DES initial permutation. -/
def ipTable : List Nat :=
  [58, 50, 42, 34, 26, 18, 10, 2, 60, 52, 44, 36, 28, 20, 12, 4,
   62, 54, 46, 38, 30, 22, 14, 6, 64, 56, 48, 40, 32, 24, 16, 8,
   57, 49, 41, 33, 25, 17, 9, 1, 59, 51, 43, 35, 27, 19, 11, 3,
   61, 53, 45, 37, 29, 21, 13, 5, 63, 55, 47, 39, 31, 23, 15, 7]

/-- DES final permutation (inverse of `ipTable`). -/
def fpTable : List Nat :=
  [40, 8, 48, 16, 56, 24, 64, 32, 39, 7, 47, 15, 55, 23, 63, 31,
   38, 6, 46, 14, 54, 22, 62, 30, 37, 5, 45, 13, 53, 21, 61, 29,
   36, 4, 44, 12, 52, 20, 60, 28, 35, 3, 43, 11, 51, 19, 59, 27,
   34, 2, 42, 10, 50, 18, 58, 26, 33, 1, 41, 9, 49, 17, 57, 25]

/-- DES expansion of the 32-bit half block to 48 bits. -/
def eTable : List Nat :=
  [32, 1, 2, 3, 4, 5, 4, 5, 6, 7, 8, 9, 8, 9, 10, 11, 12, 13,
   12, 13, 14, 15, 16, 17, 16, 17, 18, 19, 20, 21, 20, 21, 22, 23, 24, 25,
   24, 25, 26, 27, 28, 29, 28, 29, 30, 31, 32, 1]

/-- DES permutation after the S-boxes. -/
def pTable : List Nat :=
  [16, 7, 20, 21, 29, 12, 28, 17, 1, 15, 23, 26, 5, 18, 31, 10,
   2, 8, 24, 14, 32, 27, 3, 9, 19, 13, 30, 6, 22, 11, 4, 25]

/-- DES key schedule: permuted choice 1. -/
def pc1Table : List Nat :=
  [57, 49, 41, 33, 25, 17, 9, 1, 58, 50, 42, 34, 26, 18,
   10, 2, 59, 51, 43, 35, 27, 19, 11, 3, 60, 52, 44, 36,
   63, 55, 47, 39, 31, 23, 15, 7, 62, 54, 46, 38, 30, 22,
   14, 6, 61, 53, 45, 37, 29, 21, 13, 5, 28, 20, 12, 4]

/-- DES key schedule: permuted choice 2. -/
def pc2Table : List Nat :=
  [14, 17, 11, 24, 1, 5, 3, 28, 15, 6, 21, 10,
   23, 19, 12, 4, 26, 8, 16, 7, 27, 20, 13, 2,
   41, 52, 31, 37, 47, 55, 30, 40, 51, 45, 33, 48,
   44, 49, 39, 56, 34, 53, 46, 42, 50, 36, 29, 32]

/-- DES key schedule: per-round left-rotation amounts. -/
def shiftTable : List Nat := [1, 1, 2, 2, 2, 2, 2, 2, 1, 2, 2, 2, 2, 2, 2, 1]

/-- DES substitution boxes S1 to S8, each four rows of sixteen. -/
def sboxTables : List (List Nat) :=
  [[14, 4, 13, 1, 2, 15, 11, 8, 3, 10, 6, 12, 5, 9, 0, 7,
    0, 15, 7, 4, 14, 2, 13, 1, 10, 6, 12, 11, 9, 5, 3, 8,
    4, 1, 14, 8, 13, 6, 2, 11, 15, 12, 9, 7, 3, 10, 5, 0,
    15, 12, 8, 2, 4, 9, 1, 7, 5, 11, 3, 14, 10, 0, 6, 13],
   [15, 1, 8, 14, 6, 11, 3, 4, 9, 7, 2, 13, 12, 0, 5, 10,
    3, 13, 4, 7, 15, 2, 8, 14, 12, 0, 1, 10, 6, 9, 11, 5,
    0, 14, 7, 11, 10, 4, 13, 1, 5, 8, 12, 6, 9, 3, 2, 15,
    13, 8, 10, 1, 3, 15, 4, 2, 11, 6, 7, 12, 0, 5, 14, 9],
   [10, 0, 9, 14, 6, 3, 15, 5, 1, 13, 12, 7, 11, 4, 2, 8,
    13, 7, 0, 9, 3, 4, 6, 10, 2, 8, 5, 14, 12, 11, 15, 1,
    13, 6, 4, 9, 8, 15, 3, 0, 11, 1, 2, 12, 5, 10, 14, 7,
    1, 10, 13, 0, 6, 9, 8, 7, 4, 15, 14, 3, 11, 5, 2, 12],
   [7, 13, 14, 3, 0, 6, 9, 10, 1, 2, 8, 5, 11, 12, 4, 15,
    13, 8, 11, 5, 6, 15, 0, 3, 4, 7, 2, 12, 1, 10, 14, 9,
    10, 6, 9, 0, 12, 11, 7, 13, 15, 1, 3, 14, 5, 2, 8, 4,
    3, 15, 0, 6, 10, 1, 13, 8, 9, 4, 5, 11, 12, 7, 2, 14],
   [2, 12, 4, 1, 7, 10, 11, 6, 8, 5, 3, 15, 13, 0, 14, 9,
    14, 11, 2, 12, 4, 7, 13, 1, 5, 0, 15, 10, 3, 9, 8, 6,
    4, 2, 1, 11, 10, 13, 7, 8, 15, 9, 12, 5, 6, 3, 0, 14,
    11, 8, 12, 7, 1, 14, 2, 13, 6, 15, 0, 9, 10, 4, 5, 3],
   [12, 1, 10, 15, 9, 2, 6, 8, 0, 13, 3, 4, 14, 7, 5, 11,
    10, 15, 4, 2, 7, 12, 9, 5, 6, 1, 13, 14, 0, 11, 3, 8,
    9, 14, 15, 5, 2, 8, 12, 3, 7, 0, 4, 10, 1, 13, 11, 6,
    4, 3, 2, 12, 9, 5, 15, 10, 11, 14, 1, 7, 6, 0, 8, 13],
   [4, 11, 2, 14, 15, 0, 8, 13, 3, 12, 9, 7, 5, 10, 6, 1,
    13, 0, 11, 7, 4, 9, 1, 10, 14, 3, 5, 12, 2, 15, 8, 6,
    1, 4, 11, 13, 12, 3, 7, 14, 10, 15, 6, 8, 0, 5, 9, 2,
    6, 11, 13, 8, 1, 4, 10, 7, 9, 5, 0, 15, 14, 2, 3, 12],
   [13, 2, 8, 4, 6, 15, 11, 1, 10, 9, 3, 14, 5, 0, 12, 7,
    1, 15, 13, 8, 10, 3, 7, 4, 12, 5, 6, 11, 0, 14, 9, 2,
    7, 11, 4, 1, 9, 12, 14, 2, 0, 6, 10, 13, 15, 3, 5, 8,
    2, 1, 14, 7, 4, 10, 8, 13, 15, 12, 9, 0, 3, 5, 6, 11]]

/-- DES key schedule: the sixteen 48-bit round subkeys. -/
def desSubkeys (key : List Nat) : List (List Nat) :=
  let k := permute pc1Table (bytesToBits key)
  let start : List Nat × List Nat × List (List Nat) := (k.take 28, k.drop 28, [])
  (shiftTable.foldl (fun acc s =>
    let c := rotl s acc.1
    let d := rotl s acc.2.1
    (c, d, acc.2.2 ++ [permute pc2Table (c ++ d)])) start).2.2

/-- Split a 48-bit list into eight 6-bit groups. -/
def chunks6 : List Nat → List (List Nat)
  | a :: b :: c :: d :: e :: f :: rest => [a, b, c, d, e, f] :: chunks6 rest
  | _ => []

/-- One S-box application: row from the outer bits, column from the
middle four, giving four output bits. -/
def sboxBits (box bits : List Nat) : List Nat :=
  let row := bits.getD 0 0 * 2 + bits.getD 5 0
  let col := bitsToByte ((bits.drop 1).take 4)
  let v := box.getD (row * 16 + col) 0
  [v / 8 % 2, v / 4 % 2, v / 2 % 2, v % 2]

/-- The DES round function f. -/
def feistel (subkey r : List Nat) : List Nat :=
  let x := xorBits (permute eTable r) subkey
  let groups := chunks6 x
  let s := ((List.range 8).map
    (fun i => sboxBits (sboxTables.getD i []) (groups.getD i []))).flatten
  permute pTable s

/-- The sixteen Feistel rounds. -/
def desRounds (subkeys : List (List Nat)) (l r : List Nat) :
    List Nat × List Nat :=
  subkeys.foldl (fun acc k => (acc.2, xorBits acc.1 (feistel k acc.2))) (l, r)

/-- DES encryption of one 8-byte block under an 8-byte key. -/
def desBlock (key block : List Nat) : List Nat :=
  let subkeys := desSubkeys key
  let ip := permute ipTable (bytesToBits block)
  let lr := desRounds subkeys (ip.take 32) (ip.drop 32)
  bitsToBytes (permute fpTable (lr.2 ++ lr.1))

/-- The password bit-reversal loop of `Client::from_tcp_stream`
(client.rs lines 238-243): `cs |= ((c >> j) & 1) << (7 - j)` for
`j` in `0..8`. -/
def bitReverse (c : Nat) : Nat :=
  (List.range 8).foldl (fun cs j => cs ||| ((c >>> j) &&& 1) <<< (7 - j)) 0

/-- The in-place transformation of the whole 8-byte password array. -/
def vncKeyTransform (password : List Nat) : List Nat := password.map bitReverse

/-- Modelled from the spec: `security::des` (the `security` module is
not under `src/`) — §4.3: "Client computes DES-ECB over both 8-byte
halves of the challenge and returns the 16-byte ciphertext."  The
argument order matches the call `des(&challenge, &password)`. -/
def des (challenge key : List Nat) : List Nat :=
  desBlock key (challenge.take 8) ++ desBlock key (challenge.drop 8)

/-- The VNC-authentication step of `Client::from_tcp_stream`
(client.rs lines 227-249): bit-reverse every password byte, then
respond with `des(&challenge, &password)`. -/
def vncAuthResponse (password challenge : List Nat) : List Nat :=
  des challenge (vncKeyTransform password)

/-! ## Rect and the server-side framing helper (server.rs) -/

/-- `Rect` (lib.rs): left, top, width, height as u16. -/
structure Rect where
  left : Nat
  top : Nat
  width : Nat
  height : Nat
deriving DecidableEq

/-- `Rect::new_empty`.  Modelled from the spec ("pseudo-encoding
confirmation (zero-sized rect)", §4.6): the all-zero rectangle; the
`impl Rect` block is not under `src/`. -/
def Rect.newEmpty : Rect := { left := 0, top := 0, width := 0, height := 0 }

/-- `Rect::write_to`.  Modelled from the spec (§4.1: rectangles are
framed as x, y, w, h big-endian u16 before the encoding tag; the
`impl Message for Rect` block is not under `src/`). -/
def rectWriteTo (r : Rect) : Bytes :=
  writeU16 r.left ++ writeU16 r.top ++ writeU16 r.width ++ writeU16 r.height

/-- `server::Event` (server.rs). -/
inductive SEvent where
  | setPixelFormat (pixelFormat : PixelFormat)
  | setEncodings (encodings : List Encoding)
  | framebufferUpdateRequest (incremental : Bool) (rect : Rect)
  | keyEvent (down : Bool) (key : Nat)
  | pointerEvent (buttonMask xPosition yPosition : Nat)
  | cutText (text : List Nat)
  | extendedKeyEvent (down : Bool) (keysym keycode : Nat)
deriving DecidableEq

/-- `server::Update` (server.rs). -/
inductive Update where
  | raw (rect : Rect) (pixelData : Bytes)
  | copyRect (dst : Rect) (srcXPosition srcYPosition : Nat)
  | zrle (rect : Rect) (zlibData : Bytes)
  | setCursor (size hotspot : Nat × Nat) (pixels maskBits : Bytes)
  | desktopSize (width height : Nat)
  | encoding (encoding : Encoding)
deriving DecidableEq

/-- `ValidationData` (server.rs). -/
structure ValidationData where
  bytesPerPixel : Nat
deriving DecidableEq

/-- `ValidationData::update`: `bytes_per_pixel = (bits_per_pixel as u16
+ 7) / 8` (`bits_per_pixel` is a u8, so the u16 sum cannot wrap). -/
def ValidationData.update (_vd : ValidationData) (pf : PixelFormat) :
    ValidationData :=
  { bytesPerPixel := (pf.bitsPerPixel + 7) / 8 }

/-- `ValidationData::new`: starts at 0 and immediately updates. -/
def ValidationData.new (pf : PixelFormat) : ValidationData :=
  ValidationData.update { bytesPerPixel := 0 } pf

/-- `Update::check` as a predicate: `true` exactly when the source
does not panic. -/
def updateCheck (vd : ValidationData) : Update → Bool
  | .raw rect pixelData =>
      rect.width * rect.height * vd.bytesPerPixel == pixelData.length
  | .copyRect _ _ _ => true
  | .zrle _ zlibData => decide (zlibData.length ≤ 4294967295)
  | .setCursor size _ pixels maskBits =>
      (size.1 * size.2 * vd.bytesPerPixel == pixels.length) &&
      ((size.1 + 7) / 8 * size.2 == maskBits.length)
  | .desktopSize _ _ => true
  | .encoding _ => true

/-- `Update::write_to` (server.rs lines 183-224). -/
def updateWriteTo : Update → Bytes
  | .raw rect pixelData =>
      rectWriteTo rect ++ encodingWriteTo .raw ++ pixelData
  | .copyRect dst srcXPosition srcYPosition =>
      rectWriteTo dst ++ encodingWriteTo .copyRect ++
      writeU16 srcXPosition ++ writeU16 srcYPosition
  | .zrle rect zlibData =>
      rectWriteTo rect ++ encodingWriteTo .zrle ++
      writeU32 zlibData.length ++ zlibData
  | .setCursor size hotspot pixels maskBits =>
      writeU16 hotspot.1 ++ writeU16 hotspot.2 ++
      writeU16 size.1 ++ writeU16 size.2 ++
      encodingWriteTo .cursor ++ pixels ++ maskBits
  | .desktopSize width height =>
      writeU16 0 ++ writeU16 0 ++ writeU16 width ++ writeU16 height ++
      encodingWriteTo .desktopSize
  | .encoding e =>
      rectWriteTo Rect.newEmpty ++ encodingWriteTo e

/-- `self.updates.chunks(u16::max_value() as usize)`: successive groups
of at most 65535 updates; an empty list yields no chunks. -/
def updateChunks : List Update → List (List Update)
  | [] => []
  | u :: rest =>
      ((u :: rest).take 65535) :: updateChunks ((u :: rest).drop 65535)
termination_by l => l.length
decreasing_by simp; omega

/-- `FramebufferUpdate::write_to` (server.rs lines 329-338): for each
chunk, one `S2C::FramebufferUpdate` header with the chunk's length as
count, followed by the chunk's serialized updates. -/
def fbuWriteTo (updates : List Update) : Bytes :=
  ((updateChunks updates).map (fun chunk =>
    s2cWriteTo (.framebufferUpdate chunk.length) ++
    (chunk.map updateWriteTo).flatten)).flatten

/-- `Server::send_update` (server.rs lines 468-472): `check` runs over
every accumulated update before anything is written and panics at the
first invalid one; the panic outcome is modelled as `.error ()`, with
no bytes produced for the stream. -/
def sendUpdate (vd : ValidationData) (updates : List Update) :
    Except Unit Bytes :=
  if updates.all (fun u => updateCheck vd u) then .ok (fbuWriteTo updates)
  else .error ()

/-- `Server::read_event` (server.rs lines 421-462): reads one `C2S`
message and maps it to a `server::Event`; only `SetPixelFormat`
touches the validation state. -/
def serverReadEvent (vd : ValidationData) (bs : Bytes) :
    Except Err (SEvent × Bytes × ValidationData) :=
  match c2sReadFrom bs with
  | .error e => .error e
  | .ok (package, rest) =>
    match package with
    | .setPixelFormat pixelFormat =>
        .ok (.setPixelFormat pixelFormat, rest, vd.update pixelFormat)
    | .setEncodings encodings => .ok (.setEncodings encodings, rest, vd)
    | .framebufferUpdateRequest incremental xPosition yPosition width height =>
        .ok (.framebufferUpdateRequest incremental
               { left := xPosition, top := yPosition, width, height }, rest, vd)
    | .keyEvent down key => .ok (.keyEvent down key, rest, vd)
    | .pointerEvent buttonMask xPosition yPosition =>
        .ok (.pointerEvent buttonMask xPosition yPosition, rest, vd)
    | .cutText text => .ok (.cutText text, rest, vd)
    | .extendedKeyEvent down keysym keycode =>
        .ok (.extendedKeyEvent down keysym keycode, rest, vd)

/-! ## Client events and the pump (client.rs) -/

/-- `client::Event` (client.rs). -/
inductive CEvent where
  | disconnected (error : Option Err)
  | resize (width height : Nat)
  | setColourMap (firstColour : Nat) (colours : List Colour)
  | putPixels (rect : Rect) (pixels : Bytes)
  | copyPixels (src dst : Rect)
  | endOfFrame
  | setCursor (size hotspot : Nat × Nat) (pixels maskBits : Bytes)
  | clipboard (text : List Nat)
  | bell
deriving DecidableEq

/-- Whether an event is a `Disconnected`. -/
def CEvent.isDisconnected : CEvent → Bool
  | .disconnected _ => true
  | _ => false

/-- The 64×64 tile grid of a rectangle, row-major, clipped at the right
and bottom edges (spec §4.2 step 1). -/
def zrleTiles (r : Rect) : List Rect :=
  (List.range ((r.height + 63) / 64)).flatMap (fun ty =>
    (List.range ((r.width + 63) / 64)).map (fun tx =>
      { left := r.left + tx * 64, top := r.top + ty * 64,
        width := min 64 (r.width - tx * 64),
        height := min 64 (r.height - ty * 64) }))

/-- Modelled from the spec: the `zrle` module is not under `src/`.
Per §4.2 the decoder divides the rectangle into 64×64 tiles, row-major,
clipped at the edges, and delivers one `PutPixels` per tile with an
expanded buffer of width·height·(bits_per_pixel/8) bytes.  The zlib
layer and the per-tile subencoding parsing are abstracted: tile pixel
content is left as zero bytes, decoding is modelled as total, and no
theorem below depends on tile contents or on ZRLE failure modes. -/
def zrleDecode (format : PixelFormat) (rect : Rect) (_data : Bytes) :
    List (Rect × Bytes) :=
  (zrleTiles rect).map (fun t =>
    (t, List.replicate (t.width * t.height * (format.bitsPerPixel / 8)) 0))

/-- Handling of one rectangle inside `Event::pump`'s `FramebufferUpdate`
arm (client.rs lines 89-142): the events sent for this rectangle and
either the remaining stream or the error that stops the loop. -/
def processRect (format : PixelFormat) (rectangle : RectangleHeader)
    (rest : Bytes) : List CEvent × Except Err Bytes :=
  let dst : Rect := { left := rectangle.xPosition,
                      top := rectangle.yPosition,
                      width := rectangle.width,
                      height := rectangle.height }
  match rectangle.encoding with
  | .raw =>
    match readBytes (rectangle.width * rectangle.height *
        (format.bitsPerPixel / 8)) rest with
    | .error e => ([], .error e)
    | .ok (pixels, rest1) => ([.putPixels dst pixels], .ok rest1)
  | .copyRect =>
    match copyRectReadFrom rest with
    | .error e => ([], .error e)
    | .ok (copyRect, rest1) =>
      ([.copyPixels { left := copyRect.srcXPosition,
                      top := copyRect.srcYPosition,
                      width := rectangle.width,
                      height := rectangle.height } dst], .ok rest1)
  | .zrle =>
    match readU32 rest with
    | .error e => ([], .error e)
    | .ok (length, rest1) =>
      match readBytes length rest1 with
      | .error e => ([], .error e)
      | .ok (data, rest2) =>
        ((zrleDecode format dst data).map
          (fun t => CEvent.putPixels t.1 t.2), .ok rest2)
  | .cursor =>
    match readBytes (rectangle.width * rectangle.height *
        (format.bitsPerPixel / 8)) rest with
    | .error e => ([], .error e)
    | .ok (pixels, rest1) =>
      match readBytes ((rectangle.width + 7) / 8 * rectangle.height)
          rest1 with
      | .error e => ([], .error e)
      | .ok (maskBits, rest2) =>
        ([.setCursor (rectangle.width, rectangle.height)
            (rectangle.xPosition, rectangle.yPosition) pixels maskBits],
         .ok rest2)
  | .desktopSize =>
    ([.resize rectangle.width rectangle.height], .ok rest)
  | _ => ([], .error (.unexpected "encoding"))

/-- The per-rectangle loop of `Event::pump` for one `FramebufferUpdate`
with `count` rectangles (client.rs lines 79-143).  Returns the events
sent so far and either the remaining stream or the error that stopped
the loop. -/
def processRects (format : PixelFormat) :
    Nat → Bytes → List CEvent × Except Err Bytes
  | 0, bs => ([], .ok bs)
  | n + 1, bs =>
    match rectangleReadFrom bs with
    | .error e => ([], .error e)
    | .ok (rectangle, rest) =>
      match processRect format rectangle rest with
      | (events, .error e) => (events, .error e)
      | (events, .ok rest1) =>
        let next := processRects format n rest1
        (events ++ next.1, next.2)

/-- One iteration body of `Event::pump` after a packet was read
(client.rs lines 72-151). -/
def processPacket (format : PixelFormat) (packet : S2C) (rest : Bytes) :
    List CEvent × Except Err Bytes :=
  match packet with
  | .setColourMapEntries firstColour colours =>
      ([.setColourMap firstColour colours], .ok rest)
  | .framebufferUpdate count =>
      let next := processRects format count rest
      match next.2 with
      | .ok rest1 => (next.1 ++ [.endOfFrame], .ok rest1)
      | .error e => (next.1, .error e)
  | .bell => ([.bell], .ok rest)
  | .cutText text => ([.clipboard text], .ok rest)

/-- The read loop of `Event::pump` (client.rs lines 59-152) over a
finite input stream, with fuel for termination (one unit per packet;
the driver below supplies enough).  A `Disconnected` read error (clean
EOF at a message boundary) sends `Disconnected(None)` and leaves the
loop with `Ok(())`; any other error leaves it with that error.  The
event channel is modelled as always accepting (the receiving `Client`
is alive), so the send-failure `break` branches are never taken. -/
def pumpLoop (format : PixelFormat) :
    Nat → Bytes → List CEvent × Except Err Unit
  | 0, _ => ([], .error .ioError)
  | fuel + 1, bs =>
    match s2cReadFrom bs with
    | .error .disconnected => ([.disconnected Option.none], .ok ())
    | .error e => ([], .error e)
    | .ok (packet, rest) =>
      match processPacket format packet rest with
      | (events, .error e) => (events, .error e)
      | (events, .ok rest1) =>
          let next := pumpLoop format fuel rest1
          (events ++ next.1, next.2)

/-- The error payload the spawning wrapper passes to its final
`Disconnected`: `Event::pump(..).err()`. -/
def errOption : Except Err Unit → Option Err
  | .ok _ => Option.none
  | .error e => some e

/-- The whole pump thread (client.rs lines 297-301): run the loop, then
send one final `Disconnected` carrying the loop's error, if any. -/
def pumpRun (format : PixelFormat) (bs : Bytes) : List CEvent :=
  let r := pumpLoop format (bs.length + 1) bs
  r.1 ++ [.disconnected (errOption r.2)]

/-- The caller-visible state of a `Client` (client.rs): the event queue
written by the pump, plus name, size and the shared pixel format. -/
structure ClientState where
  events : List CEvent
  name : List Nat
  size : Nat × Nat
  format : PixelFormat
deriving DecidableEq

/-- `Client::poll_event` (client.rs lines 404-414): `try_recv` yields
`None` on an empty (or sender-closed) queue; a received `Resize`
updates the stored size before being returned; every other event is
returned unchanged. -/
def pollEvent (s : ClientState) : Option CEvent × ClientState :=
  match s.events with
  | [] => (Option.none, s)
  | e :: rest =>
    match e with
    | .resize width height =>
        (some (.resize width height),
         { s with events := rest, size := (width, height) })
    | ev => (some ev, { s with events := rest })

/-! ## Proxy (lib.rs) -/

/-- `Result::and`: the first error wins, otherwise the second result. -/
def resultAnd (a b : Except Err Unit) : Except Err Unit :=
  match a with
  | .error e => .error e
  | .ok _ => b

/-- `Proxy::join` (lib.rs lines 594-601): `c2s_result.and(s2c_result)`,
with `Err(Disconnected)` mapped to `Ok(())`. -/
def proxyJoin (c2sResult s2cResult : Except Err Unit) : Except Err Unit :=
  match resultAnd c2sResult s2cResult with
  | .error .disconnected => .ok ()
  | result => result

/-! ## Theorems for claims C1, C2, C3 -/

/-- C1: the claim says decoding the bytes produced by encoding any C2S
message yields the message back.  It fails: `C2S::write_to` for
`CutText` omits the type byte and padding, so the encoding of
`CutText("")` is just the four length bytes `[0,0,0,0]`, which decode
as a truncated `SetPixelFormat` and fail with an I/O error. -/
theorem C1_cuttext_roundtrip_fails :
    c2sWriteTo (C2S.cutText []) = [0, 0, 0, 0] ∧
    c2sReadFrom (c2sWriteTo (C2S.cutText [])) = .error .ioError ∧
    c2sReadFrom (c2sWriteTo (C2S.cutText [])) ≠ .ok (C2S.cutText [], []) := by
  refine ⟨rfl, rfl, ?_⟩
  decide

/-- C2 counterexample: the claim says that under RFB 3.3 the client
reads the single security type as a big-endian u32.  On the wire bytes
`[0,0,0,2]` the source consumes one byte (value 0, `Invalid`, hence an
empty list) while the u32 reading of the claim would consume all four
bytes and yield `VncAuthentication`. -/
theorem C2_counterexample :
    clientReadSecurityTypes .rfb33 [0, 0, 0, 2] = .ok ([], [0, 0, 2]) ∧
    clientReadSecurityTypesSpec .rfb33 [0, 0, 0, 2] =
      .ok ([SecurityType.vncAuthentication], []) ∧
    clientReadSecurityTypes .rfb33 [0, 0, 0, 2] ≠
      clientReadSecurityTypesSpec .rfb33 [0, 0, 0, 2] := by
  refine ⟨rfl, rfl, ?_⟩
  decide

/-- Shared helper: reading `n` one-byte security types from a stream
that holds at least `n` bytes. -/
theorem readList_securityType (n : Nat) :
    ∀ bs : Bytes, n ≤ bs.length →
      readList securityTypeReadFrom n bs =
        .ok ((bs.take n).map byteSecurityType, bs.drop n) := by
  induction n with
  | zero => intro bs _; simp [readList]
  | succ n ih =>
    intro bs h
    match bs with
    | [] => simp at h
    | b :: rest =>
      have hrest : n ≤ rest.length := by simpa using h
      simp [readList, securityTypeReadFrom, readU8, bind, Except.bind,
        ih rest hrest]

/-- C2 amended: under RFB 3.3 the client reads the single security type
as one byte (the u8 `SecurityType` codec), mapping byte 0 (`Invalid`)
to an empty offer list; under 3.7/3.8 it reads a u8 count followed by
that many one-byte security types. -/
theorem C2_amended :
    (∀ rest : Bytes,
      clientReadSecurityTypes .rfb33 (0 :: rest) = .ok ([], rest)) ∧
    (∀ (b : Nat) (rest : Bytes), b ≠ 0 →
      clientReadSecurityTypes .rfb33 (b :: rest) =
        .ok ([byteSecurityType b], rest)) ∧
    (∀ v : Version, v ≠ Version.rfb33 →
      ∀ (cnt : Nat) (rest : Bytes), cnt ≤ rest.length →
        clientReadSecurityTypes v (cnt :: rest) =
          .ok ((rest.take cnt).map byteSecurityType, rest.drop cnt)) := by
  refine ⟨?_, ?_, ?_⟩
  · intro rest
    simp [clientReadSecurityTypes, securityTypeReadFrom, readU8, bind,
      Except.bind, byteSecurityType]
  · intro b rest hb
    have hne : byteSecurityType b ≠ SecurityType.invalid := by
      unfold byteSecurityType
      split <;> simp_all
    simp [clientReadSecurityTypes, securityTypeReadFrom, readU8, bind,
      Except.bind, hne]
  · intro v hv cnt rest hcnt
    have hl := readList_securityType cnt rest hcnt
    cases v with
    | rfb33 => exact absurd rfl hv
    | rfb37 =>
      simp [clientReadSecurityTypes, securityTypesReadFrom, readU8, bind,
        Except.bind, hl]
    | rfb38 =>
      simp [clientReadSecurityTypes, securityTypesReadFrom, readU8, bind,
        Except.bind, hl]

/-- C2 amended, witness: concrete instances of both arms. -/
theorem C2_amended_witness :
    clientReadSecurityTypes .rfb33 [2, 9] =
      .ok ([SecurityType.vncAuthentication], [9]) ∧
    clientReadSecurityTypes .rfb38 [2, 1, 2] =
      .ok ([SecurityType.none, SecurityType.vncAuthentication], []) := by
  constructor
  · exact C2_amended.2.1 2 [9] (by decide)
  · exact C2_amended.2.2 Version.rfb38 (by decide) 2 [1, 2] (by decide)

/-- C3: the claim says every Latin-1 string round-trips through
`String::write_to` / `String::read_from`.  It fails on `"é"` (U+00E9):
the writer's length prefix is `String::len() = 2` (the UTF-8 byte
length) but it emits only one payload byte (`c as u8`), so the reader
hits end-of-stream. -/
theorem C3_latin1_roundtrip_fails :
    stringWriteTo [0xE9] = [0, 0, 0, 2, 0xE9] ∧
    stringReadFrom (stringWriteTo [0xE9]) = .error .ioError ∧
    stringReadFrom (stringWriteTo [0xE9]) ≠ .ok ([0xE9], []) := by
  refine ⟨rfl, rfl, ?_⟩
  decide

/-! ## Theorems for claim C4 -/

/-- Sanity check of the DES model against the classic published test
vector (key 133457799BBCDFF1, plaintext 0123456789ABCDEF). -/
theorem desBlock_known_answer :
    desBlock [0x13, 0x34, 0x57, 0x79, 0x9B, 0xBC, 0xDF, 0xF1]
             [0x01, 0x23, 0x45, 0x67, 0x89, 0xAB, 0xCD, 0xEF] =
      [0x85, 0xE8, 0x13, 0x54, 0x0F, 0x0A, 0xB4, 0x05] := by
  decide

/-- A DES block output always has eight bytes. -/
theorem desBlock_length (key block : List Nat) :
    (desBlock key block).length = 8 := by
  simp [desBlock, permute, fpTable, bitsToBytes]

/-- C4 counterexample: bit-reversing the bytes of "password"
(`[0x70, 0x61, 0x73, 0x73, 0x77, 0x6F, 0x72, 0x64]`) does not give the
key constant the claim states — already the third byte is 0xCE (the
reversal of 's' = 0x73), not 0xC6. -/
theorem C4_counterexample :
    vncKeyTransform [0x70, 0x61, 0x73, 0x73, 0x77, 0x6F, 0x72, 0x64] ≠
      [0x0E, 0x86, 0xC6, 0x46, 0xA6, 0xE6, 0x96, 0x26] := by
  decide

/-- C4 amended: for password "password" the bit-reversed DES key is
`[0x0E, 0x86, 0xCE, 0xCE, 0xEE, 0xF6, 0x4E, 0x26]`, and the response
written to the server is the DES-ECB encryption of the two 8-byte
halves of the challenge under that key — 16 bytes in all. -/
theorem C4_vnc_auth :
    vncKeyTransform [0x70, 0x61, 0x73, 0x73, 0x77, 0x6F, 0x72, 0x64] =
      [0x0E, 0x86, 0xCE, 0xCE, 0xEE, 0xF6, 0x4E, 0x26] ∧
    (∀ challenge : List Nat,
      vncAuthResponse [0x70, 0x61, 0x73, 0x73, 0x77, 0x6F, 0x72, 0x64]
          challenge =
        desBlock [0x0E, 0x86, 0xCE, 0xCE, 0xEE, 0xF6, 0x4E, 0x26]
          (challenge.take 8) ++
        desBlock [0x0E, 0x86, 0xCE, 0xCE, 0xEE, 0xF6, 0x4E, 0x26]
          (challenge.drop 8)) ∧
    (∀ challenge : List Nat,
      (vncAuthResponse [0x70, 0x61, 0x73, 0x73, 0x77, 0x6F, 0x72, 0x64]
        challenge).length = 16) := by
  have hkey : vncKeyTransform [0x70, 0x61, 0x73, 0x73, 0x77, 0x6F, 0x72, 0x64] =
      [0x0E, 0x86, 0xCE, 0xCE, 0xEE, 0xF6, 0x4E, 0x26] := by decide
  refine ⟨hkey, ?_, ?_⟩
  · intro challenge
    simp [vncAuthResponse, des, hkey]
  · intro challenge
    simp [vncAuthResponse, des, desBlock_length]

/-! ## Theorems for claim C5 -/

/-- Events sent for one rectangle are never `Disconnected`. -/
theorem processRect_events (format : PixelFormat)
    (rectangle : RectangleHeader) (rest : Bytes) :
    ∀ e ∈ (processRect format rectangle rest).1,
      e.isDisconnected = false := by
  intro e he
  unfold processRect at he
  split at he
  · split at he
    · simp at he
    · simp at he; subst he; rfl
  · split at he
    · simp at he
    · simp at he; subst he; rfl
  · split at he
    · simp at he
    · split at he
      · simp at he
      · simp at he
        obtain ⟨t, w, -, rfl⟩ := he
        rfl
  · split at he
    · simp at he
    · split at he
      · simp at he
      · simp at he; subst he; rfl
  · simp at he; subst he; rfl
  · simp at he

/-- Events sent while processing the rectangles of one
`FramebufferUpdate` are never `Disconnected`. -/
theorem processRects_events (format : PixelFormat) :
    ∀ (n : Nat) (bs : Bytes), ∀ e ∈ (processRects format n bs).1,
      e.isDisconnected = false := by
  intro n
  induction n with
  | zero => intro bs e he; simp [processRects] at he
  | succ n ih =>
    intro bs e he
    rw [processRects] at he
    split at he
    · simp at he
    · rename_i rectangle rest heq
      split at he
      · rename_i events e1 heq2
        exact processRect_events format rectangle rest e (by rw [heq2]; exact he)
      · rename_i events rest1 heq2
        simp at he
        rcases he with he | he
        · exact processRect_events format rectangle rest e (by rw [heq2]; exact he)
        · exact ih _ e he

/-- Events sent while processing one packet are never `Disconnected`. -/
theorem processPacket_events (format : PixelFormat) (packet : S2C)
    (rest : Bytes) :
    ∀ e ∈ (processPacket format packet rest).1, e.isDisconnected = false := by
  intro e he
  cases packet with
  | setColourMapEntries firstColour colours =>
    simp [processPacket] at he
    subst he; rfl
  | framebufferUpdate count =>
    simp only [processPacket] at he
    split at he
    · simp at he
      rcases he with he | rfl
      · exact processRects_events format count rest e he
      · rfl
    · simp at he
      exact processRects_events format count rest e he
  | bell => simp [processPacket] at he; subst he; rfl
  | cutText text => simp [processPacket] at he; subst he; rfl

/-- Shape of the pump loop output: some non-`Disconnected` events,
then — exactly on a clean EOF at a message boundary — one
`Disconnected(None)`, with the loop result telling the two cases
apart. -/
theorem pumpLoop_shape (format : PixelFormat) :
    ∀ (fuel : Nat) (bs : Bytes), ∃ es : List CEvent,
      (∀ e ∈ es, e.isDisconnected = false) ∧
      (((pumpLoop format fuel bs).1 = es ++ [.disconnected Option.none] ∧
          (pumpLoop format fuel bs).2 = .ok ()) ∨
        ((pumpLoop format fuel bs).1 = es ∧
          ∃ err, (pumpLoop format fuel bs).2 = .error err)) := by
  intro fuel
  induction fuel with
  | zero =>
    intro bs
    exact ⟨[], by simp, Or.inr ⟨rfl, .ioError, rfl⟩⟩
  | succ fuel ih =>
    intro bs
    cases hs : s2cReadFrom bs with
    | error e =>
      cases e
      case disconnected =>
        exact ⟨[], by simp, Or.inl (by simp [pumpLoop, hs])⟩
      all_goals
        exact ⟨[], by simp,
          Or.inr ⟨by simp [pumpLoop, hs], _, by simp only [pumpLoop, hs]; rfl⟩⟩
    | ok p =>
      obtain ⟨packet, rest⟩ := p
      rcases hpp : processPacket format packet rest with ⟨events, res⟩
      have hev : ∀ e ∈ events, e.isDisconnected = false := by
        intro e he
        exact processPacket_events format packet rest e (by rw [hpp]; exact he)
      cases res with
      | error e1 =>
        refine ⟨events, hev, Or.inr ⟨?_, e1, ?_⟩⟩
        · simp [pumpLoop, hs, hpp]
        · simp [pumpLoop, hs, hpp]
      | ok rest1 =>
        obtain ⟨es, hnd, hor⟩ := ih rest1
        rcases hor with ⟨h1, h2⟩ | ⟨h1, err, h2⟩
        · refine ⟨events ++ es, ?_, Or.inl ⟨?_, ?_⟩⟩
          · intro e he
            rcases List.mem_append.mp he with he | he
            · exact hev e he
            · exact hnd e he
          · simp [pumpLoop, hs, hpp, h1]
          · simp [pumpLoop, hs, hpp, h2]
        · refine ⟨events ++ es, ?_, Or.inr ⟨?_, err, ?_⟩⟩
          · intro e he
            rcases List.mem_append.mp he with he | he
            · exact hev e he
            · exact hnd e he
          · simp [pumpLoop, hs, hpp, h1]
          · simp [pumpLoop, hs, hpp, h2]

/-- C5 counterexample: on a clean EOF at a message boundary (empty
input) the pump delivers `Disconnected(None)` twice — once from the
read loop and once from the thread wrapper — so more than one
`Disconnected` reaches the event queue, contradicting the claim. -/
theorem C5_counterexample :
    pumpRun PixelFormat.newRgb8888 [] =
      [.disconnected Option.none, .disconnected Option.none] ∧
    ¬ (List.countP (fun e => e.isDisconnected)
        (pumpRun PixelFormat.newRgb8888 []) ≤ 1) := by
  exact ⟨rfl, by decide⟩

/-- C5 amended: for every input stream the pump delivers a block of
non-`Disconnected` events followed either by exactly two
`Disconnected(None)` events (clean EOF at a message boundary: one from
the loop, one from the thread wrapper) or by exactly one
`Disconnected(Some(err))` (any error); in particular the final event is
always a `Disconnected` and at most two `Disconnected` events are ever
delivered. -/
theorem C5_pump_disconnect (format : PixelFormat) (bs : Bytes) :
    ∃ es : List CEvent,
      (∀ e ∈ es, e.isDisconnected = false) ∧
      (pumpRun format bs =
          es ++ [.disconnected Option.none, .disconnected Option.none] ∨
        ∃ err, pumpRun format bs = es ++ [.disconnected (some err)]) := by
  obtain ⟨es, hnd, hor⟩ := pumpLoop_shape format (bs.length + 1) bs
  refine ⟨es, hnd, ?_⟩
  rcases hor with ⟨h1, h2⟩ | ⟨h1, err, h2⟩
  · left; simp [pumpRun, h1, h2, errOption]
  · right; exact ⟨err, by simp [pumpRun, h1, h2, errOption]⟩

/-- C5 amended, witness: the theorem applied at the empty stream. -/
theorem C5_pump_disconnect_witness :
    ∃ es : List CEvent,
      (∀ e ∈ es, e.isDisconnected = false) ∧
      (pumpRun PixelFormat.newRgb8888 [] =
          es ++ [.disconnected Option.none, .disconnected Option.none] ∨
        ∃ err, pumpRun PixelFormat.newRgb8888 [] =
          es ++ [.disconnected (some err)]) :=
  C5_pump_disconnect PixelFormat.newRgb8888 []

/-! ## Theorems for claim C6 -/

/-- C6 counterexample: with the client-to-server thread ending in
`Disconnected` and the server-to-client thread ending in an I/O error,
`join` returns `Ok(())` — not the non-`Disconnected` session error the
claim requires. -/
theorem C6_counterexample :
    proxyJoin (.error .disconnected) (.error .ioError) = .ok () ∧
    proxyJoin (.error .disconnected) (.error .ioError) ≠
      .error Err.ioError := by
  exact ⟨rfl, by decide⟩

/-- C6 amended: given that both forwarding threads terminate with
errors, `join` returns `Ok(())` exactly when the client-to-server
thread terminated with `Disconnected` — the server-to-client result is
then ignored entirely — and otherwise returns the client-to-server
thread's error. -/
theorem C6_join (e1 e2 : Err) :
    proxyJoin (.error e1) (.error e2) =
      if e1 = Err.disconnected then .ok () else .error e1 := by
  cases e1 <;> simp [proxyJoin, resultAnd]

/-! ## Theorems for claim C7 -/

/-- C7: `send_update` validates every accumulated update before the
stream is touched; it panics (modelled `.error ()`, no bytes produced)
whenever some `Raw` update's buffer length differs from
width·height·ceil(bits_per_pixel/8), and succeeds whenever every
accumulated update passes its validation rule. -/
theorem C7_send_update_validation (pf : PixelFormat) (updates : List Update) :
    ((∃ u ∈ updates, ∃ rect pixelData, u = Update.raw rect pixelData ∧
        pixelData.length ≠
          rect.width * rect.height * ((pf.bitsPerPixel + 7) / 8)) →
      sendUpdate (ValidationData.new pf) updates = .error ()) ∧
    ((∀ u ∈ updates, updateCheck (ValidationData.new pf) u = true) →
      sendUpdate (ValidationData.new pf) updates = .ok (fbuWriteTo updates)) := by
  constructor
  · rintro ⟨u, hu, rect, pixelData, rfl, hlen⟩
    have hbad : ¬ updateCheck (ValidationData.new pf)
        (.raw rect pixelData) = true := by
      intro hchk
      simp [updateCheck, ValidationData.new, ValidationData.update] at hchk
      exact hlen hchk.symm
    have hall : updates.all
        (fun u => updateCheck (ValidationData.new pf) u) = false :=
      List.all_eq_false.mpr ⟨_, hu, hbad⟩
    simp [sendUpdate, hall]
  · intro hall
    have h : updates.all (fun u => updateCheck (ValidationData.new pf) u)
        = true := List.all_eq_true.mpr hall
    simp [sendUpdate, h]

/-- C7 witness: a bad `Raw` update panics before writing; a fully valid
update list serializes. -/
theorem C7_send_update_validation_witness :
    sendUpdate (ValidationData.new PixelFormat.newRgb8888)
      [Update.raw ⟨0, 0, 2, 1⟩ [0, 0, 0]] = .error () ∧
    sendUpdate (ValidationData.new PixelFormat.newRgb8888)
      [Update.desktopSize 640 480] =
      .ok (fbuWriteTo [Update.desktopSize 640 480]) := by
  constructor
  · exact (C7_send_update_validation PixelFormat.newRgb8888 _).1
      ⟨Update.raw ⟨0, 0, 2, 1⟩ [0, 0, 0], by simp, ⟨0, 0, 2, 1⟩, [0, 0, 0],
        rfl, by decide⟩
  · exact (C7_send_update_validation PixelFormat.newRgb8888 _).2 (by decide)

/-! ## Theorems for claim C8 -/

/-- Concatenating the chunks recovers the original update list. -/
theorem updateChunks_flatten (l : List Update) :
    (updateChunks l).flatten = l := by
  induction l using updateChunks.induct with
  | case1 => simp [updateChunks]
  | case2 u rest ih =>
    rw [updateChunks, List.flatten_cons, ih, List.take_append_drop]

/-- There are exactly ceil(n/65535) chunks. -/
theorem updateChunks_length (l : List Update) :
    (updateChunks l).length = (l.length + 65534) / 65535 := by
  induction l using updateChunks.induct with
  | case1 => simp [updateChunks]
  | case2 u rest ih =>
    rw [updateChunks]
    simp only [List.length_cons, ih, List.length_drop]
    omega

/-- Every chunk is nonempty and carries at most 65535 updates. -/
theorem updateChunks_mem (l : List Update) :
    ∀ c ∈ updateChunks l, 0 < c.length ∧ c.length ≤ 65535 := by
  induction l using updateChunks.induct with
  | case1 => simp [updateChunks]
  | case2 u rest ih =>
    intro c hc
    rw [updateChunks] at hc
    rcases List.mem_cons.mp hc with rfl | hc
    · refine ⟨by simp, by simp⟩
    · exact ih c hc

/-- A `FramebufferUpdate` header written with an in-range count reads
back with exactly that count, leaving the rest of the stream intact. -/
theorem fbuHeader_roundtrip (count : Nat) (h : count < 65536)
    (tail : Bytes) :
    s2cReadFrom (s2cWriteTo (.framebufferUpdate count) ++ tail) =
      .ok (.framebufferUpdate count, tail) := by
  simp [s2cWriteTo, s2cReadFrom, writeU8, writeU16, readBytes, readU16,
    bind, Except.bind]
  omega

/-- C8: serializing a builder with n updates emits ceil(n/65535)
back-to-back `FramebufferUpdate` messages; each carries at most 65535
rectangles, its count field reads back as exactly the number of
rectangles it carries, and concatenating the chunks in message order
reproduces the accumulated updates in insertion order. -/
theorem C8_chunked_serialization (updates : List Update) :
    (updateChunks updates).length = (updates.length + 65534) / 65535 ∧
    (updateChunks updates).flatten = updates ∧
    (∀ chunk ∈ updateChunks updates,
      0 < chunk.length ∧ chunk.length ≤ 65535 ∧
      (∀ tail : Bytes,
        s2cReadFrom (s2cWriteTo (.framebufferUpdate chunk.length) ++ tail) =
          .ok (.framebufferUpdate chunk.length, tail))) ∧
    fbuWriteTo updates =
      ((updateChunks updates).map (fun chunk =>
        s2cWriteTo (.framebufferUpdate chunk.length) ++
        (chunk.map updateWriteTo).flatten)).flatten := by
  refine ⟨updateChunks_length updates, updateChunks_flatten updates, ?_, rfl⟩
  intro chunk hc
  obtain ⟨h1, h2⟩ := updateChunks_mem updates chunk hc
  exact ⟨h1, h2, fun tail => fbuHeader_roundtrip chunk.length (by omega) tail⟩

/-- C8 witness: the theorem applied to a one-update builder. -/
theorem C8_chunked_serialization_witness :
    (updateChunks [Update.desktopSize 3 4]).length = 1 ∧
    (updateChunks [Update.desktopSize 3 4]).flatten =
      [Update.desktopSize 3 4] ∧
    s2cReadFrom (s2cWriteTo (.framebufferUpdate 1) ++ []) =
      .ok (.framebufferUpdate 1, []) := by
  have h := C8_chunked_serialization [Update.desktopSize 3 4]
  have hmem : [Update.desktopSize 3 4] ∈
      updateChunks [Update.desktopSize 3 4] := by
    rw [updateChunks]; simp
  exact ⟨h.1, h.2.1, (h.2.2.1 [Update.desktopSize 3 4] hmem).2.2 []⟩

/-! ## Theorems for claim C9 -/

/-- C9: `poll_event` never changes the stored name or format; it sets
the stored size to (w, h) exactly when it returns `Some(Resize(w, h))`,
and leaves the size unchanged for every other return value, including
`None`. -/
theorem C9_poll_event (s : ClientState) :
    (pollEvent s).2.name = s.name ∧
    (pollEvent s).2.format = s.format ∧
    (∀ width height, (pollEvent s).1 = some (.resize width height) →
      (pollEvent s).2.size = (width, height)) ∧
    ((∀ width height, (pollEvent s).1 ≠ some (.resize width height)) →
      (pollEvent s).2.size = s.size) := by
  obtain ⟨events, name, size, format⟩ := s
  cases events with
  | nil => exact ⟨rfl, rfl, fun w h hc => by simp [pollEvent] at hc, fun _ => rfl⟩
  | cons e rest =>
    cases e with
    | resize w h =>
      refine ⟨rfl, rfl, ?_, ?_⟩
      · intro width height hsome
        simp [pollEvent] at hsome ⊢
        exact ⟨hsome.1, hsome.2⟩
      · intro hall
        exact absurd (by simp [pollEvent]) (hall w h)
    | disconnected err =>
      exact ⟨rfl, rfl, fun w h hc => by simp [pollEvent] at hc, fun _ => rfl⟩
    | setColourMap fc cs =>
      exact ⟨rfl, rfl, fun w h hc => by simp [pollEvent] at hc, fun _ => rfl⟩
    | putPixels r p =>
      exact ⟨rfl, rfl, fun w h hc => by simp [pollEvent] at hc, fun _ => rfl⟩
    | copyPixels src dst =>
      exact ⟨rfl, rfl, fun w h hc => by simp [pollEvent] at hc, fun _ => rfl⟩
    | endOfFrame =>
      exact ⟨rfl, rfl, fun w h hc => by simp [pollEvent] at hc, fun _ => rfl⟩
    | setCursor sz hs p m =>
      exact ⟨rfl, rfl, fun w h hc => by simp [pollEvent] at hc, fun _ => rfl⟩
    | clipboard t =>
      exact ⟨rfl, rfl, fun w h hc => by simp [pollEvent] at hc, fun _ => rfl⟩
    | bell =>
      exact ⟨rfl, rfl, fun w h hc => by simp [pollEvent] at hc, fun _ => rfl⟩

/-- C9 witness: a queued `Resize` updates the size; a queued `Bell`
leaves size, name and format untouched. -/
theorem C9_poll_event_witness :
    (pollEvent ⟨[CEvent.resize 3 4], [7], (1, 2),
      PixelFormat.newRgb8888⟩).2.size = (3, 4) ∧
    (pollEvent ⟨[CEvent.bell], [7], (1, 2),
      PixelFormat.newRgb8888⟩).2.size = (1, 2) ∧
    (pollEvent ⟨[CEvent.bell], [7], (1, 2),
      PixelFormat.newRgb8888⟩).2.name = [7] := by
  have h1 := C9_poll_event ⟨[CEvent.resize 3 4], [7], (1, 2),
    PixelFormat.newRgb8888⟩
  have h2 := C9_poll_event ⟨[CEvent.bell], [7], (1, 2),
    PixelFormat.newRgb8888⟩
  refine ⟨h1.2.2.1 3 4 rfl, ?_, h2.1⟩
  exact h2.2.2.2 (fun w h hc => by simp [pollEvent] at hc)

/-! ## Theorems for claim C10 -/

/-- C10: when `read_event` returns `SetPixelFormat(f)` the validation
state becomes ceil(f.bits_per_pixel/8) bytes per pixel — the value
every later `send_update` checks `Raw` buffers against — and any other
returned event leaves the validation state untouched. -/
theorem C10_read_event (vd : ValidationData) (bs : Bytes) :
    (∀ pf rest vd',
      serverReadEvent vd bs = .ok (.setPixelFormat pf, rest, vd') →
        vd'.bytesPerPixel = (pf.bitsPerPixel + 7) / 8 ∧
        (∀ rect pixelData,
          updateCheck vd' (.raw rect pixelData) = true ↔
            pixelData.length =
              rect.width * rect.height * ((pf.bitsPerPixel + 7) / 8))) ∧
    (∀ ev rest vd',
      serverReadEvent vd bs = .ok (ev, rest, vd') →
      (∀ pf, ev ≠ SEvent.setPixelFormat pf) → vd' = vd) := by
  constructor
  · intro pf rest vd' h
    cases hc : c2sReadFrom bs with
    | error e => rw [serverReadEvent, hc] at h; cases h
    | ok p =>
      obtain ⟨msg, rest0⟩ := p
      rw [serverReadEvent, hc] at h
      cases msg <;> simp at h
      obtain ⟨hpf, -, hvd⟩ := h
      subst hpf; subst hvd
      refine ⟨rfl, ?_⟩
      intro rect pixelData
      simp [updateCheck, ValidationData.update]
      exact eq_comm
  · intro ev rest vd' h hne
    cases hc : c2sReadFrom bs with
    | error e => rw [serverReadEvent, hc] at h; cases h
    | ok p =>
      obtain ⟨msg, rest0⟩ := p
      rw [serverReadEvent, hc] at h
      cases msg <;> simp at h
      case setPixelFormat pf =>
        exact absurd h.1.symm (hne pf)
      all_goals exact h.2.2.symm

/-- C10 witness: a wire `SetPixelFormat` (32 bpp) sets the validation
state to 4 bytes per pixel and fixes the `Raw` rule; a wire
`PointerEvent` leaves the validation state unchanged. -/
theorem C10_read_event_witness :
    (ValidationData.mk 4).bytesPerPixel = (32 + 7) / 8 ∧
    (updateCheck ⟨4⟩ (Update.raw ⟨0, 0, 2, 1⟩ (List.replicate 8 0)) = true ↔
      (List.replicate 8 (0 : Nat)).length = 2 * 1 * ((32 + 7) / 8)) ∧
    (⟨7⟩ : ValidationData) = ⟨7⟩ := by
  have h1 := (C10_read_event ⟨1⟩
      [0, 0, 0, 0, 32, 24, 1, 1, 0, 255, 0, 255, 0, 255, 0, 8, 16, 0, 0, 0]).1
      PixelFormat.newRgb8888 [] ⟨4⟩ (by decide)
  have h2 := (C10_read_event ⟨7⟩ [5, 9, 0, 1, 0, 2]).2
      (SEvent.pointerEvent 9 1 2) [] ⟨7⟩ (by decide) (by intro pf hc; cases hc)
  exact ⟨h1.1, h1.2 ⟨0, 0, 2, 1⟩ (List.replicate 8 0), h2⟩

end RVnc
